import Mathlib

/-!
Shallow embedding of the metrics derivation engine of `src/metrics.py`
(youtube-toolkit): the duration parser `parse_duration` and the enrichment
function `calculate_engagement_metrics`, together with proofs of the
specified properties.

Python dictionaries are modelled as insertion-ordered association lists with
unique keys maintained by the `set`/`update` operations; Python numbers
(ints and floats alike, compared by value as Python `==` does) are modelled
as rationals; fallible evaluation (a `TypeError` on an ill-typed field) is
modelled by `Option`.
-/

namespace YoutubeToolkit

/-! ### Duration parser

`parse_duration` in the source matches the anchored regular expression
`PT(?:(\d+)H)?(?:(\d+)M)?(?:(\d+)S)?` against the input and returns
`hours*3600 + minutes*60 + seconds`, each absent group counting as 0, and 0
when the match fails (no `PT` at the start).  Because each group is a greedy
digit run followed by a fixed letter, the regex is equivalent to the
deterministic scanner below: `component suffix cs` consumes a nonempty digit
run followed by `suffix` if one starts `cs`, and otherwise consumes nothing
(the optional group matches empty). -/

/-- Numeric value of a digit string, as Python `int()` computes it. -/
def natOfDigits (ds : List Char) : ℕ :=
  ds.foldl (fun a c => a * 10 + (c.toNat - Char.toNat '0')) 0

/-- One optional regex group `(?:(\d+)X)?`: returns the parsed value (0 when
the group is absent) and the remaining characters. -/
def component (suffix : Char) (cs : List Char) : ℕ × List Char :=
  match cs.takeWhile (fun c => c.isDigit), cs.dropWhile (fun c => c.isDigit) with
  | [], _ => (0, cs)
  | ds, c :: rest => if c = suffix then (natOfDigits ds, rest) else (0, cs)
  | _, [] => (0, cs)

/-- The parser applied to the character list of the input string. -/
def parseDurationList (l : List Char) : ℕ :=
  match l with
  | c1 :: c2 :: rest =>
    if c1 = 'P' ∧ c2 = 'T' then
      let hr := component 'H' rest
      let mr := component 'M' hr.2
      let sr := component 'S' mr.2
      hr.1 * 3600 + mr.1 * 60 + sr.1
    else 0
  | _ => 0

/-- Parse YouTube duration format (PT#H#M#S) to seconds. -/
def parse_duration (duration : String) : ℕ :=
  parseDurationList duration.toList

/-! ### Python dictionaries and values

A video record is a Python `dict`.  We model it as an insertion-ordered
association list; `set` replaces the value of an existing key in place and
appends a fresh key at the end, exactly as CPython's `dict` does, and
`update` folds `set` over the supplied pairs (the argument of
`dict.update`).  Values are strings or numbers; Python compares ints and
floats by numeric value, so both are carried by one rational-valued
constructor. -/

inductive Value where
  | num (q : ℚ)
  | str (s : String)
deriving DecidableEq, Repr

abbrev Dict := List (String × Value)

/-- First-match lookup; `none` models a missing key. -/
def Dict.get? (d : Dict) (k : String) : Option Value :=
  match d with
  | [] => none
  | (k', v) :: rest => if k' = k then some v else Dict.get? rest k

/-- Assignment `d[k] = v`: replace in place if the key exists, else append. -/
def Dict.set (d : Dict) (k : String) (v : Value) : Dict :=
  match d with
  | [] => [(k, v)]
  | (k', v') :: rest => if k' = k then (k, v) :: rest else (k', v') :: Dict.set rest k v

/-- Python `d.update(kvs)`. -/
def Dict.update (d : Dict) (kvs : List (String × Value)) : Dict :=
  kvs.foldl (fun a kv => a.set kv.1 kv.2) d

/-- Python `video.get(k, 0)` read as a number: defaults a missing key to 0 and
fails (Python `TypeError` further down) on a non-numeric value. -/
def getNum (d : Dict) (k : String) : Option ℚ :=
  match d.get? k with
  | none => some 0
  | some (.num q) => some q
  | some (.str _) => none

/-- Reading the duration with default "PT0S": defaults a missing key and fails on a
non-string value (`re.match` raises on a non-string). -/
def getDuration (d : Dict) : Option String :=
  match d.get? "duration" with
  | none => some "PT0S"
  | some (.str s) => some s
  | some (.num _) => none

/-! ### Rounding

Python `round(x, n)` rounds to the closest multiple of `10^-n`, ties to the
even multiple. -/

/-- Round a rational to the nearest integer, ties to even. -/
def roundHalfEven (q : ℚ) : ℤ :=
  if q - ⌊q⌋ < 1/2 then ⌊q⌋
  else if q - ⌊q⌋ > 1/2 then ⌊q⌋ + 1
  else if ⌊q⌋ % 2 = 0 then ⌊q⌋ else ⌊q⌋ + 1

/-- Python `round(q, n)`. -/
def pyRound (q : ℚ) (n : ℕ) : ℚ :=
  (roundHalfEven (q * 10 ^ n) : ℚ) / 10 ^ n

/-! ### The enrichment function -/

/-- Body of the `for video in videos` loop of `calculate_engagement_metrics`:
copy the record, read the counters and the duration, compute the guarded
rates, and `update` the copy with the seven rounded derived fields. -/
def enrichVideo (subscriber_count : ℤ) (video : Dict) : Option Dict := do
  let enhanced_video := video
  let view_count ← getNum video "view_count"
  let like_count ← getNum video "like_count"
  let comment_count ← getNum video "comment_count"
  let engagement_rate_views : ℚ :=
    if view_count > 0 then ((like_count + comment_count) / view_count) * 100 else 0
  let engagement_rate_subscribers : ℚ :=
    if subscriber_count > 0 then
      ((like_count + comment_count) / (subscriber_count : ℚ)) * 100 else 0
  let view_rate : ℚ :=
    if subscriber_count > 0 then (view_count / (subscriber_count : ℚ)) * 100 else 0
  let like_rate : ℚ :=
    if view_count > 0 then (like_count / view_count) * 100 else 0
  let comment_rate : ℚ :=
    if view_count > 0 then (comment_count / view_count) * 100 else 0
  let dur ← getDuration video
  let duration_seconds : ℕ := parse_duration dur
  let views_per_minute : ℚ :=
    if duration_seconds > 0 then view_count / ((duration_seconds : ℚ) / 60) else 0
  return enhanced_video.update
    [("engagement_rate_views", .num (pyRound engagement_rate_views 3)),
     ("engagement_rate_subscribers", .num (pyRound engagement_rate_subscribers 3)),
     ("view_rate", .num (pyRound view_rate 2)),
     ("like_rate", .num (pyRound like_rate 3)),
     ("comment_rate", .num (pyRound comment_rate 3)),
     ("duration_seconds", .num (duration_seconds : ℚ)),
     ("views_per_minute", .num (pyRound views_per_minute 2))]

/-- Calculate engagement metrics for videos: the loop appending one enriched
copy per input record, in order. -/
def calculate_engagement_metrics (videos : List Dict) (subscriber_count : ℤ) :
    Option (List Dict) :=
  match videos with
  | [] => some []
  | video :: rest => do
    let e ← enrichVideo subscriber_count video
    let es ← calculate_engagement_metrics rest subscriber_count
    return e :: es

/-- The seven keys `calculate_engagement_metrics` adds to each record. -/
def derivedKeys : List String :=
  ["engagement_rate_views", "engagement_rate_subscribers", "view_rate",
   "like_rate", "comment_rate", "duration_seconds", "views_per_minute"]

/-- A record the orchestration layer is allowed to pass in: every counter is
numeric or absent and the duration is a string or absent. -/
def WFRecord (d : Dict) : Prop :=
  (getNum d "view_count").isSome ∧ (getNum d "like_count").isSome ∧
    (getNum d "comment_count").isSome ∧ (getDuration d).isSome

instance (d : Dict) : Decidable (WFRecord d) := by
  unfold WFRecord; infer_instance

/-- The seven key/value pairs `enrichVideo` passes to `update`, as a function
of the record's counters, the subscriber count and the parsed duration. -/
def metricsList (sub : ℤ) (v l c : ℚ) (ds : ℕ) : List (String × Value) :=
  [("engagement_rate_views", .num (pyRound (if v > 0 then ((l + c) / v) * 100 else 0) 3)),
   ("engagement_rate_subscribers",
     .num (pyRound (if sub > 0 then ((l + c) / (sub : ℚ)) * 100 else 0) 3)),
   ("view_rate", .num (pyRound (if sub > 0 then (v / (sub : ℚ)) * 100 else 0) 2)),
   ("like_rate", .num (pyRound (if v > 0 then (l / v) * 100 else 0) 3)),
   ("comment_rate", .num (pyRound (if v > 0 then (c / v) * 100 else 0) 3)),
   ("duration_seconds", .num (ds : ℚ)),
   ("views_per_minute", .num (pyRound (if ds > 0 then v / ((ds : ℚ) / 60) else 0) 2))]

/-- Field lookup through an optional record. -/
def getField (o : Option Dict) (k : String) : Option Value :=
  match o with
  | some d => d.get? k
  | none => none

/-! ### Input builders for the duration-parser theorems -/

/-- A nonempty all-digit character run: one regex component `\d+`. -/
def IsDigits (ds : List Char) : Prop :=
  ds ≠ [] ∧ ∀ c ∈ ds, c.isDigit = true

instance (ds : List Char) : Decidable (IsDigits ds) := by
  unfold IsDigits; infer_instance

/-- The characters of one optional component: digits followed by its unit
letter, or nothing when the component is absent. -/
def componentChars : Option (List Char) → Char → List Char
  | none, _ => []
  | some ds, suffix => ds ++ [suffix]

/-- Everything after `PT` in a duration string with optional hour, minute
and second components. -/
def durTail (oh om os : Option (List Char)) : List Char :=
  componentChars oh 'H' ++ componentChars om 'M' ++ componentChars os 'S'

/-- The integer value of an optional component (0 when absent). -/
def optVal : Option (List Char) → ℕ
  | none => 0
  | some ds => natOfDigits ds

/-! ### Concrete records used by the scenario theorems and witnesses -/

/-- The record of the specified scenario. -/
def scenarioVideo : Dict :=
  [("view_count", .num 1000), ("like_count", .num 50), ("comment_count", .num 10),
   ("duration", .str "PT10M0S")]

/-- The scenario record as `calculate_engagement_metrics` returns it with
`subscriber_count = 10000`. -/
def scenarioEnriched : Dict :=
  [("view_count", .num 1000), ("like_count", .num 50), ("comment_count", .num 10),
   ("duration", .str "PT10M0S"),
   ("engagement_rate_views", .num 6), ("engagement_rate_subscribers", .num (3/5)),
   ("view_rate", .num 10), ("like_rate", .num 5), ("comment_rate", .num 1),
   ("duration_seconds", .num 600), ("views_per_minute", .num 100)]

/-- A record with a negative view count and a positive like count. -/
def negViewRecord : Dict :=
  [("view_count", .num (-100)), ("like_count", .num 100), ("comment_count", .num 0)]

/-- A record with a negative like count. -/
def negLikesRecord : Dict :=
  [("view_count", .num 100), ("like_count", .num (-50)), ("comment_count", .num 10)]

/-- A record with zero views, used against a zero subscriber count. -/
def zeroRecord : Dict :=
  [("view_count", .num 0), ("like_count", .num 77), ("comment_count", .num 5)]

/-! ### Sanity checks on the parser and the rounding -/

example : parse_duration "PT1H2M10S" = 3730 := by decide
example : parse_duration "PT5M" = 300 := by decide
example : parse_duration "PT45S" = 45 := by decide
example : parse_duration "PT0S" = 0 := by decide
example : parse_duration "PT" = 0 := by decide
example : parse_duration "garbage" = 0 := by decide
example : parse_duration "P3DT1H2M" = 0 := by decide
example : parse_duration "PT10M0S" = 600 := by decide
example : parse_duration "PT2H3H" = 7200 := by decide
example : parse_duration "PT5Mxyz" = 300 := by decide
example : pyRound (25/10) 0 = 2 := by norm_num [pyRound, roundHalfEven]
example : pyRound (35/10) 0 = 4 := by norm_num [pyRound, roundHalfEven]
example : pyRound (123456/100000) 3 = 1235/1000 := by norm_num [pyRound, roundHalfEven]

/-! ### Dictionary lemmas -/

theorem Dict.get?_set (d : Dict) (k k' : String) (v : Value) :
    (d.set k v).get? k' = if k' = k then some v else d.get? k' := by
  induction d with
  | nil =>
    rcases eq_or_ne k' k with h | h
    · subst h; simp [Dict.set, Dict.get?]
    · simp [Dict.set, Dict.get?, h, h.symm]
  | cons kv rest ih =>
    obtain ⟨k2, v2⟩ := kv
    rcases eq_or_ne k2 k with h1 | h1 <;> rcases eq_or_ne k' k with h2 | h2
    · subst h1; subst h2; simp [Dict.set, Dict.get?]
    · subst h1; simp [Dict.set, Dict.get?, h2, h2.symm]
    · subst h2; simp [Dict.set, Dict.get?, h1, ih]
    · simp [Dict.set, Dict.get?, h1, h2, ih]

theorem Dict.set_of_get? (d : Dict) (k : String) (v : Value) (h : d.get? k = some v) :
    d.set k v = d := by
  induction d with
  | nil => simp [Dict.get?] at h
  | cons kv rest ih =>
    obtain ⟨k2, v2⟩ := kv
    by_cases h1 : k2 = k
    · subst h1
      simp [Dict.get?] at h
      simp [Dict.set, h]
    · simp [Dict.get?, h1] at h
      simp [Dict.set, h1, ih h]

theorem getNum_congr (d1 d2 : Dict) (k : String) (h : d1.get? k = d2.get? k) :
    getNum d1 k = getNum d2 k := by
  simp [getNum, h]

theorem getDuration_congr (d1 d2 : Dict) (h : d1.get? "duration" = d2.get? "duration") :
    getDuration d1 = getDuration d2 := by
  simp [getDuration, h]

/-! ### Evaluated form of the loop body -/

theorem enrichVideo_eq (sub : ℤ) (d : Dict) (v l c : ℚ) (s : String)
    (hv : getNum d "view_count" = some v) (hl : getNum d "like_count" = some l)
    (hc : getNum d "comment_count" = some c) (hs : getDuration d = some s) :
    enrichVideo sub d = some (d.update (metricsList sub v l c (parse_duration s))) := by
  simp [enrichVideo, hv, hl, hc, hs, metricsList]

/-- Lookups on an updated record: each of the seven derived keys holds its
metric and every other key keeps the original record's value. -/
theorem get?_update_metrics (d : Dict) (sub : ℤ) (v l c : ℚ) (ds : ℕ) :
    (∀ k, k ∉ derivedKeys → (d.update (metricsList sub v l c ds)).get? k = d.get? k)
    ∧ (d.update (metricsList sub v l c ds)).get? "engagement_rate_views"
        = some (.num (pyRound (if v > 0 then ((l + c) / v) * 100 else 0) 3))
    ∧ (d.update (metricsList sub v l c ds)).get? "engagement_rate_subscribers"
        = some (.num (pyRound (if sub > 0 then ((l + c) / (sub : ℚ)) * 100 else 0) 3))
    ∧ (d.update (metricsList sub v l c ds)).get? "view_rate"
        = some (.num (pyRound (if sub > 0 then (v / (sub : ℚ)) * 100 else 0) 2))
    ∧ (d.update (metricsList sub v l c ds)).get? "like_rate"
        = some (.num (pyRound (if v > 0 then (l / v) * 100 else 0) 3))
    ∧ (d.update (metricsList sub v l c ds)).get? "comment_rate"
        = some (.num (pyRound (if v > 0 then (c / v) * 100 else 0) 3))
    ∧ (d.update (metricsList sub v l c ds)).get? "duration_seconds" = some (.num (ds : ℚ))
    ∧ (d.update (metricsList sub v l c ds)).get? "views_per_minute"
        = some (.num (pyRound (if ds > 0 then v / ((ds : ℚ) / 60) else 0) 2)) := by
  refine ⟨fun k hk => ?_, ?_, ?_, ?_, ?_, ?_, ?_, ?_⟩
  · simp only [derivedKeys, List.mem_cons, List.not_mem_nil, or_false, not_or] at hk
    obtain ⟨h1, h2, h3, h4, h5, h6, h7⟩ := hk
    simp [Dict.update, metricsList, Dict.get?_set, h1, h2, h3, h4, h5, h6, h7]
  all_goals simp [Dict.update, metricsList, Dict.get?_set]

theorem pyRound_zero (n : ℕ) : pyRound 0 n = 0 := by
  norm_num [pyRound, roundHalfEven]

/-- Re-running `update` with the same seven pairs changes nothing. -/
theorem update_metrics_self (d : Dict) (sub : ℤ) (v l c : ℚ) (ds : ℕ) :
    (d.update (metricsList sub v l c ds)).update (metricsList sub v l c ds)
      = d.update (metricsList sub v l c ds) := by
  obtain ⟨-, h1, h2, h3, h4, h5, h6, h7⟩ := get?_update_metrics d sub v l c ds
  set e := d.update (metricsList sub v l c ds) with he
  show e.update (metricsList sub v l c ds) = e
  simp only [Dict.update, metricsList, List.foldl_cons, List.foldl_nil]
  rw [Dict.set_of_get? _ _ _ h1, Dict.set_of_get? _ _ _ h2, Dict.set_of_get? _ _ _ h3,
      Dict.set_of_get? _ _ _ h4, Dict.set_of_get? _ _ _ h5, Dict.set_of_get? _ _ _ h6,
      Dict.set_of_get? _ _ _ h7]

/-- Enriching an already-enriched well-formed record reproduces it. -/
theorem enrichVideo_idem (sub : ℤ) (d e : Dict) (hwf : WFRecord d)
    (h : enrichVideo sub d = some e) : enrichVideo sub e = some e := by
  obtain ⟨hv', hl', hc', hs'⟩ := hwf
  obtain ⟨v, hv⟩ := Option.isSome_iff_exists.mp hv'
  obtain ⟨l, hl⟩ := Option.isSome_iff_exists.mp hl'
  obtain ⟨c, hc⟩ := Option.isSome_iff_exists.mp hc'
  obtain ⟨s, hs⟩ := Option.isSome_iff_exists.mp hs'
  have he := enrichVideo_eq sub d v l c s hv hl hc hs
  rw [h] at he
  obtain rfl : e = d.update (metricsList sub v l c (parse_duration s)) :=
    Option.some.inj he
  have hpres := (get?_update_metrics d sub v l c (parse_duration s)).1
  have hv2 := (getNum_congr _ d "view_count" (hpres "view_count" (by decide))).trans hv
  have hl2 := (getNum_congr _ d "like_count" (hpres "like_count" (by decide))).trans hl
  have hc2 := (getNum_congr _ d "comment_count" (hpres "comment_count" (by decide))).trans hc
  have hs2 := (getDuration_congr _ d (hpres "duration" (by decide))).trans hs
  rw [enrichVideo_eq sub _ v l c s hv2 hl2 hc2 hs2, update_metrics_self]

/-! ### Evaluation of the concrete scenario -/

theorem enrich_scenario : enrichVideo 10000 scenarioVideo = some scenarioEnriched := by
  have he := enrichVideo_eq 10000 scenarioVideo 1000 50 10 "PT10M0S" rfl rfl rfl rfl
  rw [show parse_duration "PT10M0S" = 600 from by decide] at he
  rw [he]
  simp [Dict.update, metricsList, Dict.set, scenarioVideo, scenarioEnriched]
  norm_num [pyRound, roundHalfEven]

theorem calc_scenario :
    calculate_engagement_metrics [scenarioVideo] 10000 = some [scenarioEnriched] := by
  simp [calculate_engagement_metrics, enrich_scenario]

/-! ### Scanner lemmas for the duration parser -/

theorem takeWhile_all_append (p : Char → Bool) (ds rest : List Char) (x : Char)
    (h : ∀ c ∈ ds, p c = true) (hx : p x = false) :
    (ds ++ x :: rest).takeWhile p = ds := by
  induction ds with
  | nil => simp [List.takeWhile_cons, hx]
  | cons a as ih =>
    have ha : p a = true := h a (List.mem_cons_self a as)
    simp [List.takeWhile_cons, ha, ih (fun c hc => h c (List.mem_cons_of_mem a hc))]

theorem dropWhile_all_append (p : Char → Bool) (ds rest : List Char) (x : Char)
    (h : ∀ c ∈ ds, p c = true) (hx : p x = false) :
    (ds ++ x :: rest).dropWhile p = x :: rest := by
  induction ds with
  | nil => simp [List.dropWhile_cons, hx]
  | cons a as ih =>
    have ha : p a = true := h a (List.mem_cons_self a as)
    simp [List.dropWhile_cons, ha, ih (fun c hc => h c (List.mem_cons_of_mem a hc))]

/-- A digit run followed by the component's own letter: the group matches
and consumes through the letter. -/
theorem component_eats (suffix : Char) (ds rest : List Char) (hd : IsDigits ds)
    (hs : suffix.isDigit = false) :
    component suffix (ds ++ suffix :: rest) = (natOfDigits ds, rest) := by
  obtain ⟨hne, hdig⟩ := hd
  unfold component
  rw [takeWhile_all_append _ ds rest suffix hdig hs,
      dropWhile_all_append _ ds rest suffix hdig hs]
  obtain ⟨a, as, rfl⟩ := List.exists_cons_of_ne_nil hne
  simp

/-- A digit run followed by some other letter: the group matches empty and
consumes nothing. -/
theorem component_skips (suffix x : Char) (ds rest : List Char) (hd : IsDigits ds)
    (hx : x.isDigit = false) (hne : x ≠ suffix) :
    component suffix (ds ++ x :: rest) = (0, ds ++ x :: rest) := by
  obtain ⟨hne', hdig⟩ := hd
  unfold component
  rw [takeWhile_all_append _ ds rest x hdig hx, dropWhile_all_append _ ds rest x hdig hx]
  obtain ⟨a, as, rfl⟩ := List.exists_cons_of_ne_nil hne'
  simp [hne]

theorem component_nil (suffix : Char) : component suffix [] = (0, []) := rfl

theorem parse_duration_mk (l : List Char) :
    parse_duration (String.mk l) = parseDurationList l := rfl

theorem parseDurationList_PT (rest : List Char) :
    parseDurationList ('P' :: 'T' :: rest)
      = (component 'H' rest).1 * 3600 + (component 'M' (component 'H' rest).2).1 * 60
        + (component 'S' (component 'M' (component 'H' rest).2).2).1 := by
  simp [parseDurationList]

/-! ### Claim C2 -/

/-- C2 (counterexample): the claim fixes `parse_duration "PT1H2M10S"` at
3732, but 1 hour, 2 minutes and 10 seconds are `1*3600 + 2*60 + 10 = 3730`
seconds, and that is what the code returns. -/
theorem C2_counterexample :
    parse_duration "PT1H2M10S" = 3730 ∧ (3730 : ℕ) ≠ 3732 := by decide

/-- C2 (amended): for every input string whose recognized prefix is `PT`
followed by optional `<hours>H`, optional `<minutes>M`, optional
`<seconds>S` with non-negative integer components, `parse_duration` returns
`hours*3600 + minutes*60 + seconds`; in particular
`parse_duration "PT1H2M10S" = 3730` (not 3732), `parse_duration "PT5M" =
300`, `parse_duration "PT45S" = 45`, `parse_duration "PT0S" = 0`,
`parse_duration "PT" = 0` and `parse_duration "garbage" = 0`. -/
theorem C2_duration_grammar :
    (∀ oh om os : Option (List Char),
      (∀ ds, oh = some ds → IsDigits ds) → (∀ ds, om = some ds → IsDigits ds) →
      (∀ ds, os = some ds → IsDigits ds) →
      parse_duration (String.mk ('P' :: 'T' :: durTail oh om os))
        = optVal oh * 3600 + optVal om * 60 + optVal os)
    ∧ parse_duration "PT1H2M10S" = 3730
    ∧ parse_duration "PT5M" = 300 ∧ parse_duration "PT45S" = 45
    ∧ parse_duration "PT0S" = 0 ∧ parse_duration "PT" = 0
    ∧ parse_duration "garbage" = 0 := by
  refine ⟨?_, by decide, by decide, by decide, by decide, by decide, by decide⟩
  rintro oh om os hh hm hs
  have hH : ('H').isDigit = false := by decide
  have hM : ('M').isDigit = false := by decide
  have hS : ('S').isDigit = false := by decide
  rw [parse_duration_mk, parseDurationList_PT]
  rcases oh with _ | hds <;> rcases om with _ | mds <;> rcases os with _ | sds
  · simp [durTail, componentChars, optVal, component_nil]
  · have hsd := hs sds rfl
    simp [durTail, componentChars, optVal,
      component_skips 'H' 'S' sds [] hsd hS (by decide),
      component_skips 'M' 'S' sds [] hsd hS (by decide),
      component_eats 'S' sds [] hsd hS]
  · have hmd := hm mds rfl
    simp [durTail, componentChars, optVal,
      component_skips 'H' 'M' mds [] hmd hM (by decide),
      component_eats 'M' mds [] hmd hM, component_nil]
  · have hmd := hm mds rfl
    have hsd := hs sds rfl
    simp [durTail, componentChars, optVal, List.append_assoc,
      component_skips 'H' 'M' mds (sds ++ ['S']) hmd hM (by decide),
      component_eats 'M' mds (sds ++ ['S']) hmd hM,
      component_eats 'S' sds [] hsd hS]
  · have hhd := hh hds rfl
    simp [durTail, componentChars, optVal,
      component_eats 'H' hds [] hhd hH, component_nil]
  · have hhd := hh hds rfl
    have hsd := hs sds rfl
    simp [durTail, componentChars, optVal, List.append_assoc,
      component_eats 'H' hds (sds ++ ['S']) hhd hH,
      component_skips 'M' 'S' sds [] hsd hS (by decide),
      component_eats 'S' sds [] hsd hS]
  · have hhd := hh hds rfl
    have hmd := hm mds rfl
    simp [durTail, componentChars, optVal, List.append_assoc,
      component_eats 'H' hds (mds ++ ['M']) hhd hH,
      component_eats 'M' mds [] hmd hM, component_nil]
  · have hhd := hh hds rfl
    have hmd := hm mds rfl
    have hsd := hs sds rfl
    simp [durTail, componentChars, optVal, List.append_assoc,
      component_eats 'H' hds (mds ++ 'M' :: (sds ++ ['S'])) hhd hH,
      component_eats 'M' mds (sds ++ ['S']) hmd hM,
      component_eats 'S' sds [] hsd hS]

/-- C2 witness: the general grammar theorem instantiated at the components
`4` hours and `5` seconds with no minutes. -/
theorem C2_witness : parse_duration "PT4H5S" = 14405 := by
  have h := C2_duration_grammar.1 (some ['4']) none (some ['5'])
    (fun ds hd => Option.some.inj hd ▸ (by decide : IsDigits ['4']))
    (fun ds hd => by cases hd)
    (fun ds hd => Option.some.inj hd ▸ (by decide : IsDigits ['5']))
  rw [show String.mk ('P' :: 'T' :: durTail (some ['4']) none (some ['5'])) = "PT4H5S"
    from by decide] at h
  exact h.trans (by decide)

/-! ### Claim C10 -/

/-- C10: `parse_duration` returns 0 for every string beginning with `P`
followed by a digit (the days form of the compact notation), such as
`"P3DT1H2M"`: the pattern requires the literal prefix `PT`. -/
theorem C10_days_form_rejected :
    (∀ (c : Char) (rest : List Char), c.isDigit = true →
      parse_duration (String.mk ('P' :: c :: rest)) = 0)
    ∧ parse_duration "P3DT1H2M" = 0 := by
  refine ⟨?_, by decide⟩
  rintro c rest hc
  rw [parse_duration_mk]
  have hcT : c ≠ 'T' := fun h => by rw [h] at hc; exact absurd hc (by decide)
  simp [parseDurationList, hcT]

/-- C10 witness: a concrete digit after `P`. -/
theorem C10_witness : parse_duration (String.mk ['P', '7']) = 0 :=
  C10_days_form_rejected.1 '7' [] (by decide)

/-! ### Claim C1 -/

/-- C1: for every record processed by `calculate_engagement_metrics`, each
rate field is 0 whenever its denominator is 0: with `view_count = 0` the
fields `engagement_rate_views`, `like_rate` and `comment_rate` are 0, and
with `subscriber_count = 0` the fields `engagement_rate_subscribers` and
`view_rate` are 0, regardless of the like and comment counts; the model's
`enrichVideo` is the loop body applied to each record, and no division
error can occur since every division is guarded. -/
theorem C1_zero_denominator_guards (sub : ℤ) (d out : Dict) (v l c : ℚ) (s : String)
    (hv : getNum d "view_count" = some v) (hl : getNum d "like_count" = some l)
    (hc : getNum d "comment_count" = some c) (hs : getDuration d = some s)
    (h : enrichVideo sub d = some out) :
    (v = 0 →
      out.get? "engagement_rate_views" = some (.num 0) ∧
      out.get? "like_rate" = some (.num 0) ∧
      out.get? "comment_rate" = some (.num 0)) ∧
    (sub = 0 →
      out.get? "engagement_rate_subscribers" = some (.num 0) ∧
      out.get? "view_rate" = some (.num 0)) := by
  have he := enrichVideo_eq sub d v l c s hv hl hc hs
  rw [h] at he
  obtain rfl : out = _ := Option.some.inj he
  obtain ⟨-, h1, h2, h3, h4, h5, -, -⟩ := get?_update_metrics d sub v l c (parse_duration s)
  constructor
  · rintro rfl
    refine ⟨?_, ?_, ?_⟩ <;> simp [h1, h4, h5, pyRound_zero]
  · rintro rfl
    refine ⟨?_, ?_⟩ <;> simp [h2, h3, pyRound_zero]

/-- C1 witness: a record with zero views and a zero subscriber count, with
nonzero like and comment counts. -/
theorem C1_witness :
    getField (enrichVideo 0 zeroRecord) "engagement_rate_views" = some (.num 0) ∧
    getField (enrichVideo 0 zeroRecord) "like_rate" = some (.num 0) ∧
    getField (enrichVideo 0 zeroRecord) "comment_rate" = some (.num 0) ∧
    getField (enrichVideo 0 zeroRecord) "engagement_rate_subscribers" = some (.num 0) ∧
    getField (enrichVideo 0 zeroRecord) "view_rate" = some (.num 0) := by
  have hev := enrichVideo_eq 0 zeroRecord 0 77 5 "PT0S" rfl rfl rfl rfl
  obtain ⟨ha, hb⟩ :=
    C1_zero_denominator_guards 0 zeroRecord _ 0 77 5 "PT0S" rfl rfl rfl rfl hev
  obtain ⟨ha1, ha2, ha3⟩ := ha rfl
  obtain ⟨hb1, hb2⟩ := hb rfl
  simp only [getField, hev]
  exact ⟨ha1, ha2, ha3, hb1, hb2⟩

/-! ### Claim C3 -/

/-- C3: on the record with `view_count = 1000`, `like_count = 50`,
`comment_count = 10`, `duration = "PT10M0S"` and `subscriber_count = 10000`,
`calculate_engagement_metrics` yields `engagement_rate_views = 6.000`,
`engagement_rate_subscribers = 0.600`, `view_rate = 10.00`,
`like_rate = 5.000`, `comment_rate = 1.000`, `duration_seconds = 600` and
`views_per_minute = 100.00` (the rounding places 3, 3, 2, 3, 3 and 2 are the
second argument of each `pyRound` in `enrichVideo`). -/
theorem C3_scenario_values :
    calculate_engagement_metrics [scenarioVideo] 10000 = some [scenarioEnriched]
    ∧ scenarioEnriched.get? "engagement_rate_views" = some (.num 6)
    ∧ scenarioEnriched.get? "engagement_rate_subscribers" = some (.num (3/5))
    ∧ scenarioEnriched.get? "view_rate" = some (.num 10)
    ∧ scenarioEnriched.get? "like_rate" = some (.num 5)
    ∧ scenarioEnriched.get? "comment_rate" = some (.num 1)
    ∧ scenarioEnriched.get? "duration_seconds" = some (.num 600)
    ∧ scenarioEnriched.get? "views_per_minute" = some (.num 100) :=
  ⟨calc_scenario, rfl, rfl, rfl, rfl, rfl, rfl, rfl⟩

/-! ### Claim C4 -/

/-- C4: for every record, `views_per_minute` equals
`view_count / (duration_seconds / 60)` rounded to 2 decimal places when
`duration_seconds > 0`, and 0 when `duration_seconds = 0` (the only other
case, since the parsed duration is a natural number). -/
theorem C4_views_per_minute (sub : ℤ) (d out : Dict) (v l c : ℚ) (s : String)
    (hv : getNum d "view_count" = some v) (hl : getNum d "like_count" = some l)
    (hc : getNum d "comment_count" = some c) (hs : getDuration d = some s)
    (h : enrichVideo sub d = some out) :
    out.get? "duration_seconds" = some (.num (parse_duration s : ℚ)) ∧
    out.get? "views_per_minute" = some (.num
      (if 0 < parse_duration s then pyRound (v / ((parse_duration s : ℚ) / 60)) 2 else 0)) := by
  have he := enrichVideo_eq sub d v l c s hv hl hc hs
  rw [h] at he
  obtain rfl : out = _ := Option.some.inj he
  obtain ⟨-, -, -, -, -, -, h6, h7⟩ := get?_update_metrics d sub v l c (parse_duration s)
  refine ⟨h6, ?_⟩
  rw [h7]
  rcases Nat.eq_zero_or_pos (parse_duration s) with h0 | h0
  · simp [h0, pyRound_zero]
  · simp [h0]

/-- C4 witness: the scenario record, whose duration parses to 600 seconds. -/
theorem C4_witness :
    scenarioEnriched.get? "duration_seconds" = some (.num 600) ∧
    scenarioEnriched.get? "views_per_minute" = some (.num 100) := by
  obtain ⟨h6, h7⟩ := C4_views_per_minute 10000 scenarioVideo scenarioEnriched 1000 50 10
    "PT10M0S" rfl rfl rfl rfl enrich_scenario
  rw [show parse_duration "PT10M0S" = 600 from by decide] at h6 h7
  refine ⟨by simpa using h6, ?_⟩
  rw [h7]
  norm_num [pyRound, roundHalfEven]

/-! ### Claim C5 -/

/-- C5: for every list of records and every subscriber count, when
`calculate_engagement_metrics` returns a list it has the same length as the
input, and the record at every position is the enrichment of the input
record at the same position — nothing lost, added or reordered. -/
theorem C5_order_preservation (videos : List Dict) (sub : ℤ) (out : List Dict)
    (h : calculate_engagement_metrics videos sub = some out) :
    out.length = videos.length ∧
    ∀ i (hi : i < videos.length) (ho : i < out.length),
      enrichVideo sub (videos.get ⟨i, hi⟩) = some (out.get ⟨i, ho⟩) := by
  induction videos generalizing out with
  | nil =>
    simp only [calculate_engagement_metrics, Option.some.injEq] at h
    subst h
    exact ⟨rfl, fun i hi => absurd hi (Nat.not_lt_zero i)⟩
  | cons video rest ih =>
    rcases he : enrichVideo sub video with _ | e
    · simp only [calculate_engagement_metrics] at h
      rw [he] at h
      simp at h
    rcases hr : calculate_engagement_metrics rest sub with _ | es
    · simp only [calculate_engagement_metrics] at h
      rw [he, hr] at h
      simp at h
    simp only [calculate_engagement_metrics] at h
    rw [he, hr] at h
    simp only [Option.bind_eq_bind, Option.some_bind, Option.pure_def,
      Option.some.injEq] at h
    subst h
    obtain ⟨hlen, hidx⟩ := ih es hr
    refine ⟨by simp [hlen], ?_⟩
    rintro (_ | i) hi ho
    · simpa using he
    · simpa using hidx i (Nat.lt_of_succ_lt_succ hi) (Nat.lt_of_succ_lt_succ ho)

/-- C5 witness: the singleton scenario list. -/
theorem C5_witness :
    ([scenarioEnriched] : List Dict).length = ([scenarioVideo] : List Dict).length ∧
    enrichVideo 10000 (([scenarioVideo] : List Dict).get ⟨0, Nat.zero_lt_one⟩)
      = some (([scenarioEnriched] : List Dict).get ⟨0, Nat.zero_lt_one⟩) := by
  obtain ⟨hlen, hidx⟩ :=
    C5_order_preservation [scenarioVideo] 10000 [scenarioEnriched] calc_scenario
  exact ⟨hlen, hidx 0 Nat.zero_lt_one Nat.zero_lt_one⟩

/-! ### Claim C6 -/

/-- C6: `calculate_engagement_metrics` does not mutate its input records:
every key/value pair of an input record (which carries none of the derived
keys, per the data model's lifecycle) is present unchanged in the output
record, and exactly the seven derived keys are added on top. -/
theorem C6_additive_enrichment (sub : ℤ) (d out : Dict) (v l c : ℚ) (s : String)
    (hv : getNum d "view_count" = some v) (hl : getNum d "like_count" = some l)
    (hc : getNum d "comment_count" = some c) (hs : getDuration d = some s)
    (hnod : ∀ k ∈ derivedKeys, d.get? k = none)
    (h : enrichVideo sub d = some out) :
    (∀ k w, d.get? k = some w → out.get? k = some w)
    ∧ (∀ k, k ∉ derivedKeys → out.get? k = d.get? k)
    ∧ (∀ k ∈ derivedKeys, (out.get? k).isSome = true)
    ∧ (∀ k, (out.get? k).isSome = true ↔ ((d.get? k).isSome = true ∨ k ∈ derivedKeys)) := by
  have he := enrichVideo_eq sub d v l c s hv hl hc hs
  rw [h] at he
  obtain rfl : out = _ := Option.some.inj he
  obtain ⟨hother, h1, h2, h3, h4, h5, h6, h7⟩ :=
    get?_update_metrics d sub v l c (parse_duration s)
  have hsome : ∀ k ∈ derivedKeys,
      ((d.update (metricsList sub v l c (parse_duration s))).get? k).isSome = true := by
    intro k hk
    simp only [derivedKeys, List.mem_cons, List.not_mem_nil, or_false] at hk
    rcases hk with rfl | rfl | rfl | rfl | rfl | rfl | rfl <;>
      simp [h1, h2, h3, h4, h5, h6, h7]
  refine ⟨?_, hother, hsome, ?_⟩
  · intro k w hw
    by_cases hk : k ∈ derivedKeys
    · rw [hnod k hk] at hw
      exact absurd hw (by simp)
    · rw [hother k hk, hw]
  · intro k
    by_cases hk : k ∈ derivedKeys
    · simp [hsome k hk, hk]
    · rw [hother k hk]
      simp [hk]

/-- C6 witness: the scenario record keeps its raw `view_count` pair and
gains the derived `engagement_rate_views` key. -/
theorem C6_witness :
    scenarioEnriched.get? "view_count" = some (.num 1000) ∧
    (scenarioEnriched.get? "engagement_rate_views").isSome = true := by
  obtain ⟨hpairs, -, hsome, -⟩ := C6_additive_enrichment 10000 scenarioVideo scenarioEnriched
    1000 50 10 "PT10M0S" rfl rfl rfl rfl (by decide) enrich_scenario
  exact ⟨hpairs "view_count" (.num 1000) rfl, hsome "engagement_rate_views" (by decide)⟩

/-! ### Claim C7 -/

/-- C7: neither function can fail.  `calculate_engagement_metrics` returns a
result on every list of records whose optional keys are absent (defaulted to
0 and `"PT0S"`) or well-typed, for every subscriber count, and
`parse_duration` never raises: every string either starts with the `PT`
prefix or falls through to the 0 fallback. -/
theorem C7_never_raises :
    (∀ (videos : List Dict) (sub : ℤ), (∀ d ∈ videos, WFRecord d) →
      (calculate_engagement_metrics videos sub).isSome = true)
    ∧ (∀ s : String, (∃ rest, s.toList = 'P' :: 'T' :: rest) ∨ parse_duration s = 0) := by
  constructor
  · intro videos sub
    induction videos with
    | nil => intro _; simp [calculate_engagement_metrics]
    | cons video rest ih =>
      intro hwf
      obtain ⟨hv', hl', hc', hs'⟩ := hwf video (List.mem_cons_self _ _)
      obtain ⟨v, hv⟩ := Option.isSome_iff_exists.mp hv'
      obtain ⟨l, hl⟩ := Option.isSome_iff_exists.mp hl'
      obtain ⟨c, hc⟩ := Option.isSome_iff_exists.mp hc'
      obtain ⟨s, hs⟩ := Option.isSome_iff_exists.mp hs'
      have he := enrichVideo_eq sub video v l c s hv hl hc hs
      have hrest := ih (fun d hd => hwf d (List.mem_cons_of_mem _ hd))
      obtain ⟨out, hout⟩ := Option.isSome_iff_exists.mp hrest
      simp [calculate_engagement_metrics, he, hout]
  · intro s
    rcases hl : s.toList with _ | ⟨c1, _ | ⟨c2, rest⟩⟩
    · right
      change parseDurationList s.toList = 0
      rw [hl]
      rfl
    · right
      change parseDurationList s.toList = 0
      rw [hl]
      rfl
    · by_cases hP : c1 = 'P' ∧ c2 = 'T'
      · obtain ⟨rfl, rfl⟩ := hP
        exact Or.inl ⟨rest, rfl⟩
      · right
        change parseDurationList s.toList = 0
        rw [hl]
        simp [parseDurationList, hP]

/-- C7 witness: a record with every optional key missing. -/
theorem C7_witness : (calculate_engagement_metrics [([] : Dict)] 7).isSome = true :=
  C7_never_raises.1 [[]] 7 (by decide)

/-! ### Claim C8 -/

/-- C8 (counterexample): the claim says negative counters propagate through
the formulas without special-casing, but the source guards with
`view_count > 0`, not `view_count != 0`.  On the record with
`view_count = -100`, `like_count = 100`, `comment_count = 0` and
`subscriber_count = 500`, the code stores `engagement_rate_views = 0`
while the formula `round((like+comment)/views*100, 3)` yields `-100`. -/
theorem C8_counterexample :
    getField (enrichVideo 500 negViewRecord) "engagement_rate_views" = some (.num 0)
    ∧ pyRound (((100 + 0) / (-100 : ℚ)) * 100) 3 = -100 ∧ ((0 : ℚ) ≠ -100) := by
  refine ⟨?_, by norm_num [pyRound, roundHalfEven], by norm_num⟩
  have he := enrichVideo_eq 500 negViewRecord (-100) 100 0 "PT0S" rfl rfl rfl rfl
  obtain ⟨-, h1, -⟩ := get?_update_metrics negViewRecord 500 (-100) 100 0
    (parse_duration "PT0S")
  simp only [getField, he]
  rw [h1]
  norm_num [pyRound_zero]

/-- C8 (amended): negative `like_count` and `comment_count` propagate
through the rate formulas without special-casing whenever the denominator
guard passes, and a negative `view_count` propagates through `view_rate`;
but the guards test `denominator > 0`, so a record with a negative
`view_count` gets 0 for `engagement_rate_views`, `like_rate` and
`comment_rate` (and a non-positive subscriber count gets 0 for the
subscriber-denominator rates) instead of the formula's value. -/
theorem C8_negative_counters (sub : ℤ) (d out : Dict) (v l c : ℚ) (s : String)
    (hv : getNum d "view_count" = some v) (hl : getNum d "like_count" = some l)
    (hc : getNum d "comment_count" = some c) (hs : getDuration d = some s)
    (h : enrichVideo sub d = some out) :
    (0 < v →
      out.get? "engagement_rate_views" = some (.num (pyRound (((l + c) / v) * 100) 3))
      ∧ out.get? "like_rate" = some (.num (pyRound ((l / v) * 100) 3))
      ∧ out.get? "comment_rate" = some (.num (pyRound ((c / v) * 100) 3)))
    ∧ (0 < sub →
      out.get? "engagement_rate_subscribers"
        = some (.num (pyRound (((l + c) / (sub : ℚ)) * 100) 3))
      ∧ out.get? "view_rate" = some (.num (pyRound ((v / (sub : ℚ)) * 100) 2)))
    ∧ (v ≤ 0 →
      out.get? "engagement_rate_views" = some (.num 0)
      ∧ out.get? "like_rate" = some (.num 0)
      ∧ out.get? "comment_rate" = some (.num 0))
    ∧ (sub ≤ 0 →
      out.get? "engagement_rate_subscribers" = some (.num 0)
      ∧ out.get? "view_rate" = some (.num 0)) := by
  have he := enrichVideo_eq sub d v l c s hv hl hc hs
  rw [h] at he
  obtain rfl : out = _ := Option.some.inj he
  obtain ⟨-, h1, h2, h3, h4, h5, -, -⟩ := get?_update_metrics d sub v l c (parse_duration s)
  refine ⟨fun hv0 => ?_, fun hs0 => ?_, fun hv0 => ?_, fun hs0 => ?_⟩
  · refine ⟨?_, ?_, ?_⟩ <;> simp [h1, h4, h5, hv0]
  · refine ⟨?_, ?_⟩ <;> simp [h2, h3, hs0]
  · have hv0' : ¬ (0 < v) := not_lt.mpr hv0
    refine ⟨?_, ?_, ?_⟩ <;> simp [h1, h4, h5, hv0', pyRound_zero]
  · have hs0' : ¬ (0 < sub) := not_lt.mpr hs0
    refine ⟨?_, ?_⟩ <;> simp [h2, h3, hs0', pyRound_zero]

/-- C8 witness: negative like count propagating. With `view_count = 100`,
`like_count = -50`, `comment_count = 10` and `subscriber_count = 200` the
stored rates are the formula values `-40`, `-50`, `10` and `50`. -/
theorem C8_witness :
    getField (enrichVideo 200 negLikesRecord) "engagement_rate_views" = some (.num (-40))
    ∧ getField (enrichVideo 200 negLikesRecord) "like_rate" = some (.num (-50))
    ∧ getField (enrichVideo 200 negLikesRecord) "view_rate" = some (.num 50) := by
  have he := enrichVideo_eq 200 negLikesRecord 100 (-50) 10 "PT0S" rfl rfl rfl rfl
  obtain ⟨hpos, hsub, -, -⟩ := C8_negative_counters 200 negLikesRecord _ 100 (-50) 10
    "PT0S" rfl rfl rfl rfl he
  obtain ⟨hb1, hb2, -⟩ := hpos (by norm_num)
  obtain ⟨-, hc2⟩ := hsub (by norm_num)
  simp only [getField, he]
  refine ⟨?_, ?_, ?_⟩
  · rw [hb1]; norm_num [pyRound, roundHalfEven]
  · rw [hb2]; norm_num [pyRound, roundHalfEven]
  · rw [hc2]; norm_num [pyRound, roundHalfEven]

/-! ### Claim C9 -/

/-- C9: `calculate_engagement_metrics` is idempotent: applied to its own
output with the same subscriber count it returns the same list, because the
raw fields are preserved and the seven derived keys are overwritten with
identical values. -/
theorem C9_idempotent (videos : List Dict) (sub : ℤ) :
    (∀ d ∈ videos, WFRecord d) →
    ∀ out, calculate_engagement_metrics videos sub = some out →
      calculate_engagement_metrics out sub = some out := by
  induction videos with
  | nil =>
    rintro - out h
    simp only [calculate_engagement_metrics, Option.some.injEq] at h
    subst h
    rfl
  | cons video rest ih =>
    rintro hwf out h
    rcases he : enrichVideo sub video with _ | e
    · simp only [calculate_engagement_metrics] at h
      rw [he] at h
      simp at h
    rcases hr : calculate_engagement_metrics rest sub with _ | es
    · simp only [calculate_engagement_metrics] at h
      rw [he, hr] at h
      simp at h
    simp only [calculate_engagement_metrics] at h
    rw [he, hr] at h
    simp only [Option.bind_eq_bind, Option.some_bind, Option.pure_def,
      Option.some.injEq] at h
    subst h
    have hidem := enrichVideo_idem sub video e (hwf video (List.mem_cons_self _ _)) he
    have hrest := ih (fun d hd => hwf d (List.mem_cons_of_mem _ hd)) es hr
    simp [calculate_engagement_metrics, hidem, hrest]

/-- C9 witness: re-enriching the enriched scenario list reproduces it. -/
theorem C9_witness :
    calculate_engagement_metrics [scenarioEnriched] 10000 = some [scenarioEnriched] :=
  C9_idempotent [scenarioVideo] 10000 (by decide) [scenarioEnriched] calc_scenario

end YoutubeToolkit
